import Mathlib

/-!
Verification of the Poll Relay and Vote-Coordination Engine of the `botka`
chat bot (src/src/modules/polls.rs), against its natural-language
specification. The Rust handlers are shallowly embedded as pure Lean
functions over an explicit database state; platform side effects are
reified as a list of `TgAction` values.
-/

namespace Botka

/-- Row of the `tg_users` table (src/src/schema.rs). -/
structure TgUser where
  id : Int
  username : Option String
  first_name : String
  last_name : Option String
deriving Repr, DecidableEq

/-- Row of the `tracked_polls` table (src/src/schema.rs); the `voted_users`
text column holds a serialized list of user ids. -/
structure TrackedPoll where
  tg_poll_id : String
  creator_id : Int
  info_chat_id : Int
  info_message_id : Int
  voted_users : List Int
deriving Repr, DecidableEq

/-- Row of the `residents` table as queried by `db_find_non_voters` in
src/src/modules/polls.rs: a resident is active while `end_date` is null. -/
structure Resident where
  tg_id : Int
  end_date : Option Int
deriving Repr, DecidableEq

/-- The portion of the SQLite database that the polls module touches. -/
structure Db where
  tracked_polls : List TrackedPoll
  tg_users : List TgUser
  residents : List Resident
deriving Repr, DecidableEq

/-- Embedding of `db_find_poll` (polls.rs): select the tracked poll by
`tg_poll_id`, left-joined with the creator row of `tg_users`. -/
def db_find_poll (db : Db) (poll_id : String) :
    Option (TrackedPoll × Option TgUser) :=
  (db.tracked_polls.find? (fun p => p.tg_poll_id == poll_id)).map
    (fun p => (p, db.tg_users.find? (fun u => u.id == p.creator_id)))

/-- Embedding of `db_find_non_voters` (polls.rs): active residents
(`end_date` null) whose id is not in `voted_users`, left-joined with
`tg_users`. -/
def db_find_non_voters (db : Db) (voted_users : List Int) :
    List (Int × Option TgUser) :=
  (db.residents.filter
      (fun r => !(voted_users.contains r.tg_id) && r.end_date.isNone)).map
    (fun r => (r.tg_id, db.tg_users.find? (fun u => u.id == r.tg_id)))

/-- Embedding of Rust `Vec::dedup`: remove consecutive duplicate elements. -/
def dedupAdj : List Int → List Int
  | [] => []
  | [a] => [a]
  | a :: b :: rest =>
    if a = b then dedupAdj (b :: rest) else a :: dedupAdj (b :: rest)

/-- The `voted_users` mutation of `handle_poll_answer` (polls.rs lines
218-225): retain everyone but the answering user when the option set is
empty, push the user otherwise, then sort and dedup. -/
def apply_answer (voted : List Int) (user : Int) (option_ids : List Nat) :
    List Int :=
  let v :=
    if option_ids.isEmpty then voted.filter (fun u => u != user)
    else voted ++ [user]
  dedupAdj (v.insertionSort (· ≤ ·))

/-! Basic lemmas about `dedupAdj`. -/

theorem dedupAdj_sublist : ∀ l : List Int, List.Sublist (dedupAdj l) l
  | [] => List.Sublist.refl _
  | [a] => List.Sublist.refl _
  | a :: b :: rest => by
    unfold dedupAdj
    by_cases h : a = b
    · simpa [h] using (dedupAdj_sublist (b :: rest)).cons a
    · simpa [h] using (dedupAdj_sublist (b :: rest)).cons₂ a

theorem mem_dedupAdj : ∀ {l : List Int} {x : Int}, x ∈ dedupAdj l ↔ x ∈ l
  | [], x => Iff.rfl
  | [a], x => Iff.rfl
  | a :: b :: rest, x => by
    unfold dedupAdj
    by_cases h : a = b
    · subst h
      rw [if_pos rfl, mem_dedupAdj (l := a :: rest)]
      simp only [List.mem_cons]
      tauto
    · simp [h, mem_dedupAdj (l := b :: rest)]

theorem sorted_dedupAdj {l : List Int} (h : l.Sorted (· ≤ ·)) :
    (dedupAdj l).Sorted (· ≤ ·) :=
  h.sublist (dedupAdj_sublist l)

theorem nodup_dedupAdj : ∀ {l : List Int}, l.Sorted (· ≤ ·) →
    (dedupAdj l).Nodup
  | [], _ => List.nodup_nil
  | [a], _ => List.nodup_singleton a
  | a :: b :: rest, h => by
    unfold dedupAdj
    have htl : (b :: rest).Sorted (· ≤ ·) := h.of_cons
    by_cases hab : a = b
    · simpa [hab] using nodup_dedupAdj htl
    · simp only [if_neg hab, List.nodup_cons]
      refine ⟨fun hmem => ?_, nodup_dedupAdj htl⟩
      have hmem' : a ∈ b :: rest := mem_dedupAdj.mp hmem
      have hle : a ≤ b := (List.sorted_cons.mp h).1 b (List.mem_cons_self b rest)
      rcases List.mem_cons.mp hmem' with h1 | h2
      · exact hab h1
      · have hge : b ≤ a := (List.sorted_cons.mp htl).1 a h2
        exact hab (le_antisymm hle hge)

/-- Membership after one vote-answer mutation: an empty option set removes
exactly the answering user, a non-empty one adds exactly that user. -/
theorem mem_apply_answer {voted : List Int} {user x : Int}
    {option_ids : List Nat} :
    x ∈ apply_answer voted user option_ids ↔
      (if option_ids.isEmpty then x ∈ voted ∧ x ≠ user
       else x ∈ voted ∨ x = user) := by
  unfold apply_answer
  by_cases h : option_ids.isEmpty <;>
    simp [h, mem_dedupAdj, List.mem_insertionSort, bne_iff_ne]

/-- The result of a vote-answer mutation is always sorted. -/
theorem sorted_apply_answer (voted : List Int) (user : Int)
    (option_ids : List Nat) :
    (apply_answer voted user option_ids).Sorted (· ≤ ·) :=
  sorted_dedupAdj (List.sorted_insertionSort _ _)

/-- The result of a vote-answer mutation is always duplicate-free. -/
theorem nodup_apply_answer (voted : List Int) (user : Int)
    (option_ids : List Nat) :
    (apply_answer voted user option_ids).Nodup :=
  nodup_dedupAdj (List.sorted_insertionSort _ _)

/-- A vote-answer event as delivered by the platform (teloxide `PollAnswer`):
the poll, the answering user, and the chosen option ids — an empty set means
the vote was retracted. -/
structure PollAnswer where
  poll_id : String
  user : Int
  option_ids : List Nat
deriving Repr, DecidableEq

/-- Repeated application of the `voted_users` mutation of
`handle_poll_answer` to one poll's stored list, one (user, option_ids) event
at a time, in arrival order. -/
def run_answers (init : List Int) (events : List (Int × List Nat)) :
    List Int :=
  events.foldl (fun v e => apply_answer v e.1 e.2) init

/-- The most recent vote status of user `u` in an event sequence:
`some true` if the last event of `u` had a non-empty option set, `some false`
if it was a retraction, `none` if `u` has no event. -/
def last_vote (u : Int) (events : List (Int × List Nat)) : Option Bool :=
  events.foldl (fun acc e => if e.1 = u then some (!e.2.isEmpty) else acc)
    none

theorem last_vote_foldl (u : Int) :
    ∀ (events : List (Int × List Nat)) (acc : Option Bool),
    events.foldl (fun a e => if e.1 = u then some (!e.2.isEmpty) else a)
        acc =
      (last_vote u events).elim acc some := by
  intro events
  induction events with
  | nil => intro acc; simp [last_vote]
  | cons e es ih =>
    intro acc
    have h2 : last_vote u (e :: es) =
        (last_vote u es).elim
          (if e.1 = u then some (!e.2.isEmpty) else none) some := by
      simp only [last_vote, List.foldl_cons]
      rw [← last_vote, ih]
    simp only [List.foldl_cons]
    rw [ih, h2]
    cases last_vote u es <;> by_cases h : e.1 = u <;> simp [h]

/-- Membership in the collected voter list is decided by the member's most
recent event, or by the initial list when the member has no event. -/
theorem mem_run_answers {u : Int} :
    ∀ {events : List (Int × List Nat)} {init : List Int},
    u ∈ run_answers init events ↔
      (last_vote u events).elim (u ∈ init) (fun b => b = true) := by
  intro events
  induction events with
  | nil => intro init; simp [run_answers, last_vote]
  | cons e es ih =>
    intro init
    have h2 : last_vote u (e :: es) =
        (last_vote u es).elim
          (if e.1 = u then some (!e.2.isEmpty) else none) some := by
      simp only [last_vote, List.foldl_cons]
      rw [← last_vote, last_vote_foldl]
    simp only [run_answers, List.foldl_cons]
    rw [← run_answers, ih, h2]
    cases hlv : last_vote u es
    · by_cases h : e.1 = u
      · subst h
        by_cases hop : e.2.isEmpty <;>
          simp [hop, mem_apply_answer]
      · have h' : u ≠ e.1 := fun hc => h hc.symm
        by_cases hop : e.2.isEmpty <;>
          simp [hop, mem_apply_answer, h, h']
    · simp

theorem run_answers_canonical :
    ∀ (events : List (Int × List Nat)) (init : List Int),
    init.Sorted (· ≤ ·) → init.Nodup →
    (run_answers init events).Sorted (· ≤ ·) ∧
      (run_answers init events).Nodup := by
  intro events
  induction events with
  | nil => intro init hs hn; exact ⟨hs, hn⟩
  | cons e es ih =>
    intro init _ _
    simp only [run_answers, List.foldl_cons]
    exact ih (apply_answer init e.1 e.2)
      (sorted_apply_answer init e.1 e.2) (nodup_apply_answer init e.1 e.2)

/-- C1: starting from the freshly created empty `voted_users` list, after any
finite sequence of vote-answer events the persisted list contains exactly the
members whose most recent event carried a non-empty option set; and any two
sequences that induce the same final per-member vote status produce the same
final list, regardless of arrival order. -/
theorem c1_final_voted_users_confluence :
    (∀ (events : List (Int × List Nat)) (u : Int),
        u ∈ run_answers [] events ↔ last_vote u events = some true) ∧
    (∀ events1 events2 : List (Int × List Nat),
        (∀ u, last_vote u events1 = last_vote u events2) →
        run_answers [] events1 = run_answers [] events2) := by
  have hmem : ∀ (events : List (Int × List Nat)) (u : Int),
      u ∈ run_answers [] events ↔ last_vote u events = some true := by
    intro events u
    rw [mem_run_answers]
    cases last_vote u events with
    | none => simp
    | some b => cases b <;> simp
  refine ⟨hmem, fun events1 events2 h => ?_⟩
  obtain ⟨hs1, hn1⟩ :=
    run_answers_canonical events1 [] List.sorted_nil List.nodup_nil
  obtain ⟨hs2, hn2⟩ :=
    run_answers_canonical events2 [] List.sorted_nil List.nodup_nil
  refine List.eq_of_perm_of_sorted ?_ hs1 hs2
  rw [List.perm_ext_iff_of_nodup hn1 hn2]
  intro u
  rw [hmem, hmem, h]

/-- Witness for C1 at the two-event sequences (3 votes, 5 retracts) in both
arrival orders. -/
theorem c1_final_voted_users_confluence_witness :
    ((3 : Int) ∈
        run_answers [] [((3 : Int), ([0] : List Nat)), (5, [])] ↔
      last_vote 3 [((3 : Int), ([0] : List Nat)), (5, [])] = some true) ∧
    ((∀ u : Int,
        last_vote u [((3 : Int), ([0] : List Nat)), (5, [])] =
          last_vote u [((5 : Int), ([] : List Nat)), (3, [0])]) ∧
      run_answers [] [((3 : Int), ([0] : List Nat)), (5, [])] =
        run_answers [] [((5 : Int), ([] : List Nat)), (3, [0])]) := by
  have h : ∀ u : Int,
      last_vote u [((3 : Int), ([0] : List Nat)), (5, [])] =
        last_vote u [((5 : Int), ([] : List Nat)), (3, [0])] := by
    intro u
    by_cases h3 : (3 : Int) = u <;> by_cases h5 : (5 : Int) = u
    · exact absurd (h3.trans h5.symm) (by decide)
    all_goals simp [last_vote, h3, h5]
  exact ⟨c1_final_voted_users_confluence.1 _ 3,
    h, c1_final_voted_users_confluence.2 _ _ h⟩

/-- Telegram poll type tag; `teloxide::types::PollType`. -/
inductive PollType
  | regular
  | quiz
deriving Repr, DecidableEq

/-- The fields of a Telegram poll object that `filter_polls` and
`intercept_new_poll` read. -/
structure TgPoll where
  id : String
  question : String
  options : List String
  total_voter_count : Nat
  is_closed : Bool
  is_anonymous : Bool
  poll_type : PollType
  allows_multiple_answers : Bool
  close_date : Option Int
deriving Repr, DecidableEq

/-- Media carried by a message: a poll, or anything else (text, photo, …). -/
inductive MediaKind
  | poll (p : TgPoll)
  | other
deriving Repr, DecidableEq

/-- Origin of a forwarded message: a visible user, or a chat / hidden user
(which the `ForwardedFrom::User` pattern in `filter_polls` rejects). -/
inductive ForwardOrigin
  | user (id : Int)
  | hiddenOrChat
deriving Repr, DecidableEq

/-- The fields of an inbound message that the polls module reads. -/
structure TgMessage where
  chat_id : Int
  chat_is_private : Bool
  msg_id : Int
  msg_from : Option TgUser
  media : MediaKind
  forward : Option ForwardOrigin
deriving Repr, DecidableEq

/-- Modelled from the spec: `is_resident` lives in `crate::common`, which is
not under src/. Per the spec a sender qualifies when they are a recognized
(resident) member; consistently with the roster query `db_find_non_voters`,
a member is an active resident while their `residents` row has a null
`end_date`. -/
def is_resident (db : Db) (uid : Int) : Bool :=
  db.residents.any (fun r => r.tg_id == uid && r.end_date.isNone)

/-- Result of `filter_polls`: a fresh poll to relay, or a forwarded poll to
answer with the pending-voter list. -/
inductive PollKind
  | new (p : TgPoll)
  | forward (poll_id : String)
deriving Repr, DecidableEq

/-- Embedding of `filter_polls` (polls.rs lines 38-73). Only messages whose
media is a poll are considered at all. A non-forwarded poll qualifies when
its question starts with the sentinel, it has no votes, is open, is not
anonymous, is a regular (non-quiz) poll, and its sender is a resident. A
forwarded poll qualifies when it was forwarded from the bot itself, in a
private chat, by a resident. -/
def filter_polls (me : Int) (db : Db) (msg : TgMessage) : Option PollKind :=
  match msg.media with
  | MediaKind.other => none
  | MediaKind.poll poll =>
    match msg.forward with
    | none =>
      if poll.question.startsWith "!" && (poll.total_voter_count == 0) &&
          !poll.is_closed && !poll.is_anonymous &&
          (poll.poll_type == PollType.regular) then
        match msg.msg_from with
        | none => none
        | some u =>
          if is_resident db u.id then some (PollKind.new poll) else none
      else none
    | some (ForwardOrigin.user fid) =>
      if fid == me && msg.chat_is_private then
        match msg.msg_from with
        | none => none
        | some u =>
          if is_resident db u.id then some (PollKind.forward poll.id)
          else none
      else none
    | some ForwardOrigin.hiddenOrChat => none

/-- Modelled from the spec: `format_user` lives in `crate::common`, not under
src/. The spec fixes only that a missing profile renders as
"unknown user, id=N"; a present profile renders as some human-readable
handle (username when available, first name otherwise). -/
def format_user (id : Int) (u : Option TgUser) : String :=
  match u with
  | none => "unknown user, id=" ++ toString id
  | some u =>
    match u.username with
    | some un => "@" ++ un
    | none => u.first_name

/-- Modelled from the spec: `format_users` (crate::common, not under src/)
renders one entry per listed member, using `format_user` for each. -/
def format_users (users : List (Int × Option TgUser)) : String :=
  String.intercalate ", " (users.map (fun p => format_user p.1 p.2))

/-- Embedding of `poll_text` (polls.rs lines 358-386): the rendered summary
message body. -/
def poll_text (creator : Int × Option TgUser)
    (non_voters : List (Int × Option TgUser)) (total_voters : Nat) :
    String :=
  let header := "Poll by " ++ format_user creator.1 creator.2 ++ ". "
  if non_voters.isEmpty then header ++ "Everyone voted!"
  else
    header ++ "Voted " ++ toString total_voters ++
      (if total_voters == 1 then " user" else " users") ++
      ", pending vote " ++ toString non_voters.length ++
      (if non_voters.length == 1 then " user" else " users") ++ ": " ++
      format_users non_voters ++ ".\n"

/-- One inline keyboard button (label and callback payload). -/
structure InlineKeyboardButton where
  label : String
  callback_data : String
deriving Repr, DecidableEq

/-- Embedding of `make_keyboard` (polls.rs): the single stop button. -/
def make_keyboard (poll_id : String) : List (List InlineKeyboardButton) :=
  [[⟨"Stop poll", "p:stop:" ++ poll_id⟩]]

/-- Embedding of `make_keyboard_confirmation` (polls.rs): the cancel /
confirm button pair. -/
def make_keyboard_confirmation (poll_id : String) :
    List (List InlineKeyboardButton) :=
  [[⟨"Cancel (do not stop)", "p:cancel:" ++ poll_id⟩,
    ⟨"Confirm (stop poll)", "p:confirm:" ++ poll_id⟩]]

/-- Reified platform side effects issued by the handlers. -/
inductive TgAction
  | sendPoll (chat : Int) (question : String) (options : List String)
  | deleteMessage (chat : Int) (msg : Int)
  | logError (what : String)
  | logWarn (what : String)
  | sendReply (text : String)
      (markup : Option (List (List InlineKeyboardButton)))
  | editMessageText (chat : Int) (msg : Int) (text : String)
      (markup : List (List InlineKeyboardButton))
  | answerCallback (id : String) (text : Option String) (alert : Bool)
  | editReplyMarkup (chat : Int) (msg : Int)
      (markup : Option (List (List InlineKeyboardButton)))
  | stopPoll (chat : Int) (msg : Int)
deriving Repr, DecidableEq

/-- The reply text of `hande_poll_forward` for a found poll (polls.rs lines
185-196): "Everyone voted!" when nobody is pending, otherwise one " @name"
fragment per non-voter that has a joined profile carrying a username. -/
def forward_text (non_voters : List (Int × Option TgUser)) : String :=
  if non_voters.isEmpty then "Everyone voted!"
  else
    String.join
      (((non_voters.filterMap Prod.snd).filterMap
          (fun u => u.username)).map (fun u => " @" ++ u))

/-- Embedding of `hande_poll_forward` (sic, polls.rs lines 169-204): a
read-only transaction computes the current non-voters of the forwarded poll;
the only effect is one reply message. -/
def hande_poll_forward (db : Db) (poll_id : String) : Db × List TgAction :=
  match db_find_poll db poll_id with
  | none => (db, [TgAction.sendReply "Unknown poll" none])
  | some (p, _) =>
    (db, [TgAction.sendReply
        (forward_text (db_find_non_voters db p.voted_users)) none])

/-- Helper mirroring the diesel UPDATE in `handle_poll_answer`: set
`voted_users` on every `tracked_polls` row whose `tg_poll_id` matches. -/
def write_voted (db : Db) (poll_id : String) (v : List Int) : Db :=
  let rows := db.tracked_polls.map
    (fun q => if q.tg_poll_id == poll_id
              then { q with voted_users := v } else q)
  { db with tracked_polls := rows }

/-- Embedding of `handle_poll_answer` (polls.rs lines 206-268): inside one
transaction, load the poll (silently no-op when unknown), recompute and
persist `voted_users`, compute the non-voters, then edit the summary
message. -/
def handle_poll_answer (db : Db) (pa : PollAnswer) : Db × List TgAction :=
  match db_find_poll db pa.poll_id with
  | none => (db, [])
  | some (p, creator) =>
    let voted := apply_answer p.voted_users pa.user pa.option_ids
    let db1 := write_voted db pa.poll_id voted
    let non_voters := db_find_non_voters db1 voted
    (db1, [TgAction.editMessageText p.info_chat_id p.info_message_id
        (poll_text (p.creator_id, creator) non_voters voted.length)
        (make_keyboard pa.poll_id)])

/-- The stop / confirm / cancel actions encoded in callback payloads. -/
inductive Action
  | stop
  | confirm
  | cancel
deriving Repr, DecidableEq

/-- Embedding of `StopPollQuery` (polls.rs). -/
structure StopPollQuery where
  poll_id : String
  action : Action
deriving Repr, DecidableEq

/-- The fields of an inbound callback query that `handle_callback` reads:
query id, invoking user, and the reply target of the message the pressed
button is attached to (when both exist). -/
structure CallbackInput where
  id : String
  from_user : Int
  message_reply : Option Int
deriving Repr, DecidableEq

/-- Rust `str::split_once` on the character level. -/
def splitOnceAux (c : Char) : List Char → Option (List Char × List Char)
  | [] => none
  | x :: xs =>
    if x = c then some ([], xs)
    else (splitOnceAux c xs).map (fun p => (x :: p.1, p.2))

/-- Rust `str::split_once`: split at the first occurrence of `c`. -/
def splitOnce (s : String) (c : Char) : Option (String × String) :=
  (splitOnceAux c s.toList).map (fun p => (String.mk p.1, String.mk p.2))

/-- Embedding of `filter_callbacks` (polls.rs lines 283-293): parse the
payload "p:ACTION:POLLID". -/
def filter_callbacks (data : Option String) : Option StopPollQuery :=
  match data with
  | none => none
  | some d =>
    if d.startsWith "p:" then
      match splitOnce (d.drop 2) ':' with
      | none => none
      | some (action, poll_id) =>
        match action with
        | "stop" => some ⟨poll_id, Action.stop⟩
        | "confirm" => some ⟨poll_id, Action.confirm⟩
        | "cancel" => some ⟨poll_id, Action.cancel⟩
        | _ => none
    else none

/-- The alert shown on a stop press (polls.rs lines 329-331). -/
def stop_warning : String :=
  "If you stop this poll now, nobody will be able to vote in anymore. This action cannot be undone."

/-- Embedding of `handle_callback` (polls.rs lines 295-356): look the poll
up, check that the invoker is the creator, locate the replacement poll via
the summary message's reply target, then act on stop / confirm / cancel and
re-edit the keyboard. The database is never written. -/
def handle_callback (db : Db) (stop : StopPollQuery) (cb : CallbackInput) :
    Db × List TgAction :=
  match db_find_poll db stop.poll_id with
  | none =>
    (db, [TgAction.answerCallback cb.id (some "Poll not found.") false])
  | some (p, _) =>
    if cb.from_user != p.creator_id then
      (db, [TgAction.answerCallback cb.id
          (some "You are not the creator of this poll.") false])
    else
      match cb.message_reply with
      | none =>
        (db, [TgAction.answerCallback cb.id
            (some "Poll message not found.") false])
      | some poll_message =>
        let acted : List TgAction × Option (List (List InlineKeyboardButton)) :=
          match stop.action with
          | Action.stop =>
            ([TgAction.answerCallback cb.id (some stop_warning) true],
             some (make_keyboard_confirmation stop.poll_id))
          | Action.confirm =>
            ([TgAction.answerCallback cb.id none false,
              TgAction.stopPoll p.info_chat_id poll_message], none)
          | Action.cancel =>
            ([TgAction.answerCallback cb.id none false],
             some (make_keyboard stop.poll_id))
        (db, acted.1 ++
          [TgAction.editReplyMarkup p.info_chat_id p.info_message_id
            acted.2])

/-- Outcomes of the fallible platform calls made during poll relay by
`intercept_new_poll`: whether the send-poll request succeeded, the id of the
message it created, the poll id that message carries (none when the platform
returned a non-poll message), whether deleting the original succeeded, and
whether and where the summary message was posted. -/
structure TgWorld where
  send_poll_ok : Bool
  new_poll_msg_id : Int
  new_poll_content : Option String
  delete_original_ok : Bool
  info_send_ok : Bool
  info_chat_id : Int
  info_message_id : Int
deriving Repr, DecidableEq

/-- Embedding of `intercept_new_poll` (polls.rs lines 89-167): relay the
poll, delete the original, post the summary, and persist the TrackedPoll
row; on each partial failure clean up best-effort and do not persist. The
Bool result is false exactly when the Rust function returns Err. -/
def intercept_new_poll (w : TgWorld) (db : Db) (msg : TgMessage)
    (poll : TgPoll) : Db × List TgAction × Bool :=
  let send := TgAction.sendPoll msg.chat_id poll.question poll.options
  if !w.send_poll_ok then (db, [send], false)
  else
    match w.new_poll_content with
    | none =>
      (db, [send, TgAction.logError "Expected poll",
        TgAction.deleteMessage msg.chat_id msg.msg_id], true)
    | some new_poll_id =>
      if !w.delete_original_ok then
        (db, [send, TgAction.logWarn "Failed to delete poll message",
          TgAction.deleteMessage msg.chat_id w.new_poll_msg_id], true)
      else
        let non_voters := db_find_non_voters db []
        let creator := msg.msg_from
        let creator_id := (creator.map (fun u => u.id)).getD 0
        if !w.info_send_ok then
          (db, [send, TgAction.deleteMessage msg.chat_id msg.msg_id], false)
        else
          let row : TrackedPoll :=
            { tg_poll_id := new_poll_id, creator_id := creator_id,
              info_chat_id := w.info_chat_id,
              info_message_id := w.info_message_id, voted_users := [] }
          ({ db with tracked_polls := db.tracked_polls ++ [row] },
           [send, TgAction.deleteMessage msg.chat_id msg.msg_id,
            TgAction.sendReply
              (poll_text (creator_id, creator) non_voters 0)
              (some (make_keyboard new_poll_id))],
           true)

/-- The polls module's message path: `dptree::filter_map(filter_polls)`
followed by `handle_message`. A message rejected by the filter is not
handled by this module: no reply, no state change. -/
def poll_module_message (w : TgWorld) (me : Int) (db : Db)
    (msg : TgMessage) : Db × List TgAction :=
  match filter_polls me db msg with
  | none => (db, [])
  | some (PollKind.new p) =>
    let r := intercept_new_poll w db msg p
    (r.1, r.2.1)
  | some (PollKind.forward pid) => hande_poll_forward db pid

theorem opt_ite_none_eq_some {α : Type} {c : Prop} [Decidable c]
    {a : Option α} {b : α} :
    (if c then a else none) = some b ↔ c ∧ a = some b := by
  split_ifs with h <;> simp [h]

/-- C5: a non-forwarded inbound poll message is selected for relay if and
only if its question starts with the sentinel character, its voter count is
zero, it is not closed, it is not anonymous, it is a plain regular
(non-quiz) poll, and its sender is a recognized resident; a poll failing any
condition is silently ignored (the filter yields nothing instead of raising
an error). -/
theorem c5_filter_polls_iff (me : Int) (db : Db) (msg : TgMessage)
    (p : TgPoll) :
    filter_polls me db msg = some (PollKind.new p) ↔
      (msg.media = MediaKind.poll p ∧ msg.forward = none ∧
       p.question.startsWith "!" = true ∧ p.total_voter_count = 0 ∧
       p.is_closed = false ∧ p.is_anonymous = false ∧
       p.poll_type = PollType.regular ∧
       ∃ u, msg.msg_from = some u ∧ is_resident db u.id = true) := by
  obtain ⟨cid, priv, mid, mfrom, media, fwd⟩ := msg
  simp only [filter_polls]
  cases media with
  | other => simp
  | poll q =>
    cases fwd with
    | none =>
      cases mfrom with
      | none => simp [opt_ite_none_eq_some]
      | some u =>
        by_cases hqp : q = p
        · subst hqp
          by_cases h1 : q.question.startsWith "!" = true <;>
          by_cases h2 : q.total_voter_count = 0 <;>
          by_cases h3 : q.is_closed = true <;>
          by_cases h4 : q.is_anonymous = true <;>
          by_cases h5 : q.poll_type = PollType.regular <;>
          by_cases h6 : is_resident db u.id = true <;>
            simp [h1, h2, h3, h4, h5, h6, Bool.and_eq_true,
              Bool.not_eq_true', beq_iff_eq, opt_ite_none_eq_some]
        · simp [hqp, opt_ite_none_eq_some]
    | some fo =>
      cases fo with
      | user fid =>
        cases mfrom with
        | none => simp [opt_ite_none_eq_some]
        | some u => simp [opt_ite_none_eq_some]
      | hiddenOrChat => simp

/-- C3: a stop, confirm, or cancel callback on a known tracked poll from a
user other than the creator is answered with the rejection notice and
mutates nothing: the store is returned unchanged and the only action is the
answer-callback notice — no keyboard edit, no poll-close — whatever the
poll's state and whatever the action. -/
theorem c3_callback_authorization (db : Db) (stop : StopPollQuery)
    (cb : CallbackInput) (p : TrackedPoll) (c : Option TgUser)
    (hfind : db_find_poll db stop.poll_id = some (p, c))
    (hne : cb.from_user ≠ p.creator_id) :
    handle_callback db stop cb =
      (db, [TgAction.answerCallback cb.id
          (some "You are not the creator of this poll.") false]) := by
  unfold handle_callback
  rw [hfind]
  simp [bne_iff_ne, hne]

/-- Witness for C3: user 2 presses stop on a poll created by user 1. -/
theorem c3_callback_authorization_witness :
    db_find_poll ⟨[⟨"p1", 1, 10, 20, []⟩], [], []⟩ "p1" =
        some (⟨"p1", 1, 10, 20, []⟩, none) ∧
    (2 : Int) ≠ 1 ∧
    handle_callback ⟨[⟨"p1", 1, 10, 20, []⟩], [], []⟩
        ⟨"p1", Action.stop⟩ ⟨"cb", 2, some 5⟩ =
      (⟨[⟨"p1", 1, 10, 20, []⟩], [], []⟩,
       [TgAction.answerCallback "cb"
          (some "You are not the creator of this poll.") false]) :=
  ⟨rfl, by decide,
   c3_callback_authorization _ ⟨"p1", Action.stop⟩ ⟨"cb", 2, some 5⟩
     ⟨"p1", 1, 10, 20, []⟩ none rfl (by decide)⟩

/-- The three kinds of inbound events that carry a poll id and can hit an
unknown poll: a vote answer, a forwarded-poll query, and a button
callback. -/
inductive IncomingEvent
  | voteAnswer (pa : PollAnswer)
  | forwardQuery (poll_id : String)
  | buttonCallback (q : StopPollQuery) (cb : CallbackInput)
deriving Repr, DecidableEq

/-- The poll id an event refers to. -/
def event_poll_id : IncomingEvent → String
  | .voteAnswer pa => pa.poll_id
  | .forwardQuery pid => pid
  | .buttonCallback q _ => q.poll_id

/-- Dispatch an inbound event to the matching polls-module handler. -/
def dispatch_event (db : Db) : IncomingEvent → Db × List TgAction
  | .voteAnswer pa => handle_poll_answer db pa
  | .forwardQuery pid => hande_poll_forward db pid
  | .buttonCallback q cb => handle_callback db q cb

/-- Actions that surface a user-visible message: a reply, or a callback
answer carrying text. -/
def is_user_message : TgAction → Bool
  | TgAction.sendReply _ _ => true
  | TgAction.answerCallback _ (some _) _ => true
  | _ => false

/-- Claim C7 as written: whenever the poll id of an inbound event has no
TrackedPoll row, the engine performs no state change AND answers with a
user-visible not-found message. -/
def claim_c7_stated : Prop :=
  ∀ (db : Db) (e : IncomingEvent),
    db_find_poll db (event_poll_id e) = none →
    (dispatch_event db e).1 = db ∧
      ∃ a ∈ (dispatch_event db e).2, is_user_message a = true

/-- Counterexample to C7 as stated: a vote answer for the unknown poll id
"p1" on the empty store is a silent no-op — the store is unchanged, but no
message of any kind is produced. -/
theorem c7_counterexample : ¬ claim_c7_stated := by
  intro h
  obtain ⟨-, a, ha, -⟩ :=
    h ⟨[], [], []⟩ (IncomingEvent.voteAnswer ⟨"p1", 1, [0]⟩) rfl
  simp [dispatch_event, handle_poll_answer, db_find_poll] at ha

/-- C7 amended: an unknown poll id never changes the store; the callback
path answers "Poll not found." and the forward path replies "Unknown poll",
but the vote-answer path no-ops silently, with no message at all. -/
theorem c7_unknown_poll_amended (db : Db) (e : IncomingEvent)
    (h : db_find_poll db (event_poll_id e) = none) :
    (dispatch_event db e).1 = db ∧
      (dispatch_event db e).2 =
        (match e with
         | IncomingEvent.voteAnswer _ => []
         | IncomingEvent.forwardQuery _ =>
            [TgAction.sendReply "Unknown poll" none]
         | IncomingEvent.buttonCallback _ cb =>
            [TgAction.answerCallback cb.id (some "Poll not found.")
              false]) := by
  cases e with
  | voteAnswer pa =>
    simp only [event_poll_id] at h
    simp [dispatch_event, handle_poll_answer, h]
  | forwardQuery pid =>
    simp only [event_poll_id] at h
    simp [dispatch_event, hande_poll_forward, h]
  | buttonCallback q cb =>
    simp only [event_poll_id] at h
    simp [dispatch_event, handle_callback, h]

/-- Witness for C7 amended at a concrete unknown-poll callback. -/
theorem c7_unknown_poll_amended_witness :
    db_find_poll ⟨[], [], []⟩ "q" = none ∧
    (dispatch_event ⟨[], [], []⟩
        (IncomingEvent.buttonCallback ⟨"q", Action.stop⟩
          ⟨"cb", 1, none⟩)).1 = ⟨[], [], []⟩ ∧
    (dispatch_event ⟨[], [], []⟩
        (IncomingEvent.buttonCallback ⟨"q", Action.stop⟩
          ⟨"cb", 1, none⟩)).2 =
      [TgAction.answerCallback "cb" (some "Poll not found.") false] := by
  refine ⟨rfl, ?_, ?_⟩
  · exact (c7_unknown_poll_amended ⟨[], [], []⟩
      (IncomingEvent.buttonCallback ⟨"q", Action.stop⟩ ⟨"cb", 1, none⟩)
      rfl).1
  · simpa using (c7_unknown_poll_amended ⟨[], [], []⟩
      (IncomingEvent.buttonCallback ⟨"q", Action.stop⟩ ⟨"cb", 1, none⟩)
      rfl).2

/-- The inline keyboard currently attached to the summary message: `some k`
while a keyboard is shown, `none` after it was cleared. This is the UI state
the spec's stop-confirmation FSM lives in. -/
abbrev KbView := Option (List (List InlineKeyboardButton))

/-- Keyboard view after a handler run: the last reply-markup edit among the
issued actions wins; without such an edit the keyboard stays. -/
def kb_step (kb : KbView) (acts : List TgAction) : KbView :=
  acts.foldl (fun k a => match a with
    | TgAction.editReplyMarkup _ _ m => m
    | _ => k) kb

/-- One button-callback event: the parsed query plus the callback query
fields. -/
abbrev CbEvent := StopPollQuery × CallbackInput

/-- Keyboard attached to the summary message just before the i-th callback
of a sequence is handled. `handle_callback` never writes the store, so the
database stays fixed along the sequence. -/
def kb_before (db : Db) (kb0 : KbView) (events : List CbEvent) (i : Nat) :
    KbView :=
  (events.take i).foldl
    (fun kb e => kb_step kb (handle_callback db e.1 e.2).2) kb0

/-- Actions issued while handling the i-th callback of a sequence. -/
def actions_at (db : Db) (events : List CbEvent) (i : Nat) :
    List TgAction :=
  match events[i]? with
  | some e => (handle_callback db e.1 e.2).2
  | none => []

/-- Claim C4 as written: in every callback sequence, the poll-close action
is issued at step i only on a confirm callback from the poll's creator,
after some earlier stop callback, and while the confirm/cancel keyboard is
the one attached to the summary message. -/
def claim_c4_stated : Prop :=
  ∀ (db : Db) (kb0 : KbView) (events : List CbEvent) (i : Nat)
    (chat m : Int), TgAction.stopPoll chat m ∈ actions_at db events i →
    ∃ e, events[i]? = some e ∧ e.1.action = Action.confirm ∧
      (∃ p c, db_find_poll db e.1.poll_id = some (p, c) ∧
        e.2.from_user = p.creator_id) ∧
      (∃ j, j < i ∧ ∃ e2, events[j]? = some e2 ∧
        e2.1.action = Action.stop) ∧
      kb_before db kb0 events i =
        some (make_keyboard_confirmation e.1.poll_id)

/-- Counterexample to C4 as stated: on a store with one tracked poll, a
single confirm callback from the creator — with no prior stop and with the
plain stop keyboard still attached — already issues the poll-close action;
the handler checks neither a prior stop nor the attached keyboard. -/
theorem c4_counterexample : ¬ claim_c4_stated := by
  intro h
  obtain ⟨e, -, -, -, ⟨j, hj, -⟩, -⟩ :=
    h ⟨[⟨"p1", 1, 10, 20, []⟩], [], []⟩ (some (make_keyboard "p1"))
      [(⟨"p1", Action.confirm⟩, ⟨"cb", 1, some 30⟩)] 0 10 30 (by decide)
  exact absurd hj (Nat.not_lt_zero j)

/-- C4 amended: a stop callback never issues the platform's poll-close
action; the close action is issued only while handling a confirm callback
whose invoker is the tracked poll's creator and whose summary message still
carries a reply target — the handler does not require a prior stop callback
nor any particular attached keyboard. -/
theorem c4_close_only_on_confirm (db : Db) (events : List CbEvent)
    (i : Nat) (chat m : Int)
    (h : TgAction.stopPoll chat m ∈ actions_at db events i) :
    ∃ e, events[i]? = some e ∧ e.1.action = Action.confirm ∧
      ∃ p c, db_find_poll db e.1.poll_id = some (p, c) ∧
        e.2.from_user = p.creator_id ∧ e.2.message_reply = some m ∧
        chat = p.info_chat_id := by
  unfold actions_at at h
  cases he : events[i]? with
  | none => rw [he] at h; simp at h
  | some e =>
    rw [he] at h
    dsimp only at h
    refine ⟨e, rfl, ?_⟩
    unfold handle_callback at h
    cases hf : db_find_poll db e.1.poll_id with
    | none => rw [hf] at h; simp at h
    | some pc =>
      obtain ⟨p, c⟩ := pc
      rw [hf] at h
      dsimp only at h
      by_cases hu : (e.2.from_user != p.creator_id) = true
      · rw [if_pos hu] at h; simp at h
      · rw [if_neg hu] at h
        have hu' : e.2.from_user = p.creator_id := by
          simpa [bne_iff_ne] using hu
        cases hr : e.2.message_reply with
        | none => rw [hr] at h; simp at h
        | some pm =>
          rw [hr] at h
          cases ha : e.1.action <;> rw [ha] at h <;> simp at h
          obtain ⟨hc, hm⟩ := h
          exact ⟨rfl, p, c, rfl, hu', by rw [hm], hc⟩

/-- Witness for C4 amended at the counterexample's configuration. -/
theorem c4_close_only_on_confirm_witness :
    TgAction.stopPoll 10 30 ∈
        actions_at ⟨[⟨"p1", 1, 10, 20, []⟩], [], []⟩
          [(⟨"p1", Action.confirm⟩, ⟨"cb", 1, some 30⟩)] 0 ∧
    (∃ e, ([(⟨"p1", Action.confirm⟩,
          (⟨"cb", 1, some 30⟩ : CallbackInput))] : List CbEvent)[0]? =
        some e ∧ e.1.action = Action.confirm ∧
      ∃ p c, db_find_poll ⟨[⟨"p1", 1, 10, 20, []⟩], [], []⟩
            e.1.poll_id = some (p, c) ∧
        e.2.from_user = p.creator_id ∧ e.2.message_reply = some 30 ∧
        (10 : Int) = p.info_chat_id) :=
  ⟨by decide,
   c4_close_only_on_confirm ⟨[⟨"p1", 1, 10, 20, []⟩], [], []⟩
     [(⟨"p1", Action.confirm⟩, ⟨"cb", 1, some 30⟩)] 0 10 30 (by decide)⟩

/-- C6: during poll relay no TrackedPoll row is persisted on any partial
failure. When the platform's reply to the send-poll request carries no poll
content, the handler deletes the original message, reports the failure in
the log, and persists nothing; when deleting the original message fails, it
compensates by deleting the newly created poll message, logs a warning, and
aborts without persisting; a failed send-poll or summary-post likewise
persists nothing. -/
theorem c6_no_persist_on_partial_failure (w : TgWorld) (db : Db)
    (msg : TgMessage) (poll : TgPoll) :
    (w.send_poll_ok = true → w.new_poll_content = none →
      (intercept_new_poll w db msg poll).1 = db ∧
      TgAction.deleteMessage msg.chat_id msg.msg_id ∈
        (intercept_new_poll w db msg poll).2.1 ∧
      TgAction.logError "Expected poll" ∈
        (intercept_new_poll w db msg poll).2.1) ∧
    (∀ pid, w.send_poll_ok = true → w.new_poll_content = some pid →
      w.delete_original_ok = false →
      (intercept_new_poll w db msg poll).1 = db ∧
      TgAction.deleteMessage msg.chat_id w.new_poll_msg_id ∈
        (intercept_new_poll w db msg poll).2.1 ∧
      TgAction.logWarn "Failed to delete poll message" ∈
        (intercept_new_poll w db msg poll).2.1) ∧
    (w.send_poll_ok = false →
      (intercept_new_poll w db msg poll).1 = db) ∧
    (w.info_send_ok = false →
      (intercept_new_poll w db msg poll).1 = db) := by
  refine ⟨fun h1 h2 => ?_, fun pid h1 h2 h3 => ?_, fun h1 => ?_,
    fun h1 => ?_⟩
  · simp [intercept_new_poll, h1, h2]
  · simp [intercept_new_poll, h1, h2, h3]
  · simp [intercept_new_poll, h1]
  · unfold intercept_new_poll
    by_cases hs : w.send_poll_ok <;> cases hc : w.new_poll_content <;>
      by_cases hd : w.delete_original_ok <;> simp [hs, hc, hd, h1]

/-- Witness for C6 in the branch where the platform returns a non-poll
message. -/
theorem c6_no_persist_on_partial_failure_witness :
    (intercept_new_poll ⟨true, 99, none, true, true, 10, 20⟩ ⟨[], [], []⟩
        ⟨10, false, 7, none, MediaKind.other, none⟩
        ⟨"pz", "!q", ["a"], 0, false, false, PollType.regular, false,
          none⟩).1 = ⟨[], [], []⟩ ∧
    TgAction.deleteMessage 10 7 ∈
      (intercept_new_poll ⟨true, 99, none, true, true, 10, 20⟩ ⟨[], [], []⟩
        ⟨10, false, 7, none, MediaKind.other, none⟩
        ⟨"pz", "!q", ["a"], 0, false, false, PollType.regular, false,
          none⟩).2.1 ∧
    TgAction.logError "Expected poll" ∈
      (intercept_new_poll ⟨true, 99, none, true, true, 10, 20⟩ ⟨[], [], []⟩
        ⟨10, false, 7, none, MediaKind.other, none⟩
        ⟨"pz", "!q", ["a"], 0, false, false, PollType.regular, false,
          none⟩).2.1 := by
  have h := (c6_no_persist_on_partial_failure
    ⟨true, 99, none, true, true, 10, 20⟩ ⟨[], [], []⟩
    ⟨10, false, 7, none, MediaKind.other, none⟩
    ⟨"pz", "!q", ["a"], 0, false, false, PollType.regular, false,
      none⟩).1 rfl rfl
  simpa using h

/-- The write operations of the polls module, as one event type: relaying a
new poll (with the platform call outcomes), a vote answer, a forwarded-poll
query, and a button callback. -/
inductive PollOp
  | relay (w : TgWorld) (msg : TgMessage) (poll : TgPoll)
  | answer (pa : PollAnswer)
  | forward (poll_id : String)
  | callback (q : StopPollQuery) (cb : CallbackInput)

/-- The store after one polls-module operation. -/
def apply_op (db : Db) : PollOp → Db
  | .relay w msg poll => (intercept_new_poll w db msg poll).1
  | .answer pa => (handle_poll_answer db pa).1
  | .forward pid => (hande_poll_forward db pid).1
  | .callback q cb => (handle_callback db q cb).1

/-- Canonical-form invariant on the store: every tracked poll's voted_users
is sorted in ascending order and duplicate-free. -/
def db_inv (db : Db) : Prop :=
  ∀ p ∈ db.tracked_polls,
    p.voted_users.Sorted (· ≤ ·) ∧ p.voted_users.Nodup

/-- The callback handler never writes the store. -/
theorem handle_callback_fst (db : Db) (q : StopPollQuery)
    (cb : CallbackInput) : (handle_callback db q cb).1 = db := by
  unfold handle_callback
  cases db_find_poll db q.poll_id with
  | none => rfl
  | some pc =>
    obtain ⟨p, c⟩ := pc
    dsimp only
    by_cases hu : (cb.from_user != p.creator_id) = true
    · rw [if_pos hu]
    · rw [if_neg hu]
      cases cb.message_reply with
      | none => rfl
      | some pm => cases q.action <;> rfl

/-- The forwarded-poll query never writes the store. -/
theorem hande_poll_forward_fst (db : Db) (pid : String) :
    (hande_poll_forward db pid).1 = db := by
  unfold hande_poll_forward
  cases db_find_poll db pid with
  | none => rfl
  | some pc => obtain ⟨p, c⟩ := pc; rfl

/-- C8: every polls-module operation preserves the canonical form of every
stored voted_users list — relay creates the row with the empty list, and the
vote-answer mutation persists only the sorted, deduplicated recomputation. -/
theorem c8_voted_users_canonical (db : Db) (op : PollOp)
    (hinv : db_inv db) : db_inv (apply_op db op) := by
  cases op with
  | relay w msg poll =>
    show db_inv (intercept_new_poll w db msg poll).1
    unfold intercept_new_poll
    by_cases hs : w.send_poll_ok <;> cases hc : w.new_poll_content <;>
      by_cases hd : w.delete_original_ok <;>
      by_cases hi : w.info_send_ok <;>
      simp only [hs, hc, hd, hi, Bool.not_true, Bool.not_false] <;>
      (try exact hinv) <;>
      simp only [if_true, if_false, Bool.false_eq_true, reduceIte] <;>
      (try exact hinv) <;>
      (intro p hp
       rcases List.mem_append.mp hp with hm | hm
       · exact hinv p hm
       · rw [List.mem_singleton] at hm
         subst hm
         exact ⟨List.sorted_nil, List.nodup_nil⟩)
  | answer pa =>
    show db_inv (handle_poll_answer db pa).1
    unfold handle_poll_answer
    cases hf : db_find_poll db pa.poll_id with
    | none => exact hinv
    | some pc =>
      obtain ⟨p, c⟩ := pc
      dsimp only
      intro q hq
      simp only [write_voted, List.mem_map] at hq
      obtain ⟨r, hr, hmap⟩ := hq
      by_cases hid : (r.tg_poll_id == pa.poll_id) = true
      · rw [if_pos hid] at hmap
        subst hmap
        exact ⟨sorted_apply_answer _ _ _, nodup_apply_answer _ _ _⟩
      · rw [if_neg hid] at hmap
        subst hmap
        exact hinv r hr
  | forward pid =>
    show db_inv (hande_poll_forward db pid).1
    rw [hande_poll_forward_fst]
    exact hinv
  | callback q cb =>
    show db_inv (handle_callback db q cb).1
    rw [handle_callback_fst]
    exact hinv

/-- Witness for C8: the invariant holds on a store with one canonical row
and is preserved by a concrete vote answer. -/
theorem c8_voted_users_canonical_witness :
    db_inv ⟨[⟨"p1", 1, 10, 20, [2, 4]⟩], [], []⟩ ∧
    db_inv (apply_op ⟨[⟨"p1", 1, 10, 20, [2, 4]⟩], [], []⟩
      (PollOp.answer ⟨"p1", 3, [0]⟩)) := by
  have hinv : db_inv ⟨[⟨"p1", 1, 10, 20, [2, 4]⟩], [], []⟩ := by
    intro p hp
    rw [List.mem_singleton] at hp
    subst hp
    exact ⟨by decide, by decide⟩
  exact ⟨hinv, c8_voted_users_canonical _ (PollOp.answer ⟨"p1", 3, [0]⟩)
    hinv⟩

/-- Claim C9 as written: whenever the creator of a tracked poll forwards
the bot's SUMMARY message — a plain text message, hence media other than a
poll — privately back to the bot, the engine replies with the live
non-voter snapshot and mutates nothing. -/
def claim_c9_stated : Prop :=
  ∀ (w : TgWorld) (me : Int) (db : Db) (msg : TgMessage)
    (tp : TrackedPoll) (u : TgUser),
    tp ∈ db.tracked_polls → msg.media = MediaKind.other →
    msg.forward = some (ForwardOrigin.user me) →
    msg.chat_is_private = true →
    msg.msg_from = some u → u.id = tp.creator_id →
    is_resident db u.id = true →
    (poll_module_message w me db msg).1 = db ∧
      ∃ a ∈ (poll_module_message w me db msg).2, is_user_message a = true

/-- Counterexample to C9 as stated: the summary message is a text message,
and `filter_polls` only ever matches messages whose media is a poll — a
privately self-forwarded copy of the summary by the (resident) creator is
not handled at all: the module replies with nothing. The reply path is in
fact triggered by forwarding the relayed poll message itself. -/
theorem c9_counterexample : ¬ claim_c9_stated := by
  intro h
  obtain ⟨-, a, ha, -⟩ :=
    h ⟨true, 0, none, true, true, 0, 0⟩ 99
      ⟨[⟨"p1", 1, 10, 20, []⟩], [], [⟨1, none⟩]⟩
      ⟨5, true, 7, some ⟨1, none, "A", none⟩, MediaKind.other,
        some (ForwardOrigin.user 99)⟩
      ⟨"p1", 1, 10, 20, []⟩ ⟨1, none, "A", none⟩
      (by decide) rfl rfl rfl rfl rfl (by decide)
  simp [poll_module_message, filter_polls] at ha

/-- C9 amended: the read-only who-has-not-voted query is triggered by a
private self-forward of the bot's relayed POLL message (the poll itself, not
the text summary message), by any current resident — in particular the
creator while still resident. The reply is the live snapshot computed from
the roster as it stands at query time together with the stored voted_users,
and the store is unchanged. -/
theorem c9_forward_query_read_only (w : TgWorld) (me : Int) (db : Db)
    (msg : TgMessage) (p : TgPoll) (u : TgUser)
    (hmedia : msg.media = MediaKind.poll p)
    (hfwd : msg.forward = some (ForwardOrigin.user me))
    (hpriv : msg.chat_is_private = true)
    (hfrom : msg.msg_from = some u)
    (hres : is_resident db u.id = true) :
    poll_module_message w me db msg =
      (db,
       match db_find_poll db p.id with
       | none => [TgAction.sendReply "Unknown poll" none]
       | some (tp, _) =>
         [TgAction.sendReply
            (forward_text (db_find_non_voters db tp.voted_users))
            none]) := by
  have hfilter : filter_polls me db msg = some (PollKind.forward p.id) := by
    unfold filter_polls
    rw [hmedia, hfwd, hfrom]
    simp [hpriv, hres]
  unfold poll_module_message
  rw [hfilter]
  dsimp only
  unfold hande_poll_forward
  cases db_find_poll db p.id with
  | none => rfl
  | some pc => obtain ⟨tp, c⟩ := pc; rfl

/-- Witness for C9 amended: the resident creator forwards the relayed poll
message; the bot replies with the two pending usernames, and the store is
returned as it was. -/
theorem c9_forward_query_read_only_witness :
    is_resident
        ⟨[⟨"p1", 1, 10, 20, []⟩],
         [⟨1, some "alice", "A", none⟩, ⟨2, some "bob", "B", none⟩],
         [⟨1, none⟩, ⟨2, none⟩]⟩ 1 = true ∧
    poll_module_message ⟨true, 0, none, true, true, 0, 0⟩ 99
        ⟨[⟨"p1", 1, 10, 20, []⟩],
         [⟨1, some "alice", "A", none⟩, ⟨2, some "bob", "B", none⟩],
         [⟨1, none⟩, ⟨2, none⟩]⟩
        ⟨5, true, 7, some ⟨1, some "alice", "A", none⟩,
          MediaKind.poll ⟨"p1", "!q", ["a"], 0, false, false,
            PollType.regular, false, none⟩,
          some (ForwardOrigin.user 99)⟩ =
      (⟨[⟨"p1", 1, 10, 20, []⟩],
        [⟨1, some "alice", "A", none⟩, ⟨2, some "bob", "B", none⟩],
        [⟨1, none⟩, ⟨2, none⟩]⟩,
       [TgAction.sendReply " @alice @bob" none]) := by
  refine ⟨by decide, ?_⟩
  have h := c9_forward_query_read_only ⟨true, 0, none, true, true, 0, 0⟩ 99
    ⟨[⟨"p1", 1, 10, 20, []⟩],
     [⟨1, some "alice", "A", none⟩, ⟨2, some "bob", "B", none⟩],
     [⟨1, none⟩, ⟨2, none⟩]⟩
    ⟨5, true, 7, some ⟨1, some "alice", "A", none⟩,
      MediaKind.poll ⟨"p1", "!q", ["a"], 0, false, false,
        PollType.regular, false, none⟩,
      some (ForwardOrigin.user 99)⟩
    ⟨"p1", "!q", ["a"], 0, false, false, PollType.regular, false, none⟩
    ⟨1, some "alice", "A", none⟩ rfl rfl rfl rfl (by decide)
  rw [h]
  rfl

/-- C10: the forwarded-poll reply renders non-voters only by username — a
non-empty non-voter list in which no entry has a profile carrying a username
produces the empty reply text, even though non-voters exist; the summary
message's renderer instead gives a member with a missing profile the
numeric-id fallback entry. -/
theorem c10_forward_reply_omits_usernameless
    (nv : List (Int × Option TgUser))
    (hne : nv ≠ [])
    (hnou : ∀ x ∈ nv, Option.bind x.2 (fun u => u.username) = none) :
    forward_text nv = "" ∧
    ∀ x ∈ nv, x.2 = none →
      format_user x.1 x.2 = "unknown user, id=" ++ toString x.1 := by
  constructor
  · have hemp : nv.isEmpty = false := by
      cases nv with
      | nil => exact absurd rfl hne
      | cons a l => rfl
    have hmen : (nv.filterMap Prod.snd).filterMap
        (fun u => u.username) = [] := by
      rw [List.filterMap_eq_nil_iff]
      intro u hu
      obtain ⟨x, hx, hxu⟩ := List.mem_filterMap.mp hu
      have hb := hnou x hx
      rw [hxu] at hb
      simpa using hb
    unfold forward_text
    rw [hmen]
    simp [hemp]
    rfl
  · intro x _ h2
    rw [h2]
    rfl

/-- Witness for C10: one pending member with no roster profile — the
forwarded reply is empty while the summary renderer shows the id
fallback. -/
theorem c10_forward_reply_omits_usernameless_witness :
    ([((5 : Int), (none : Option TgUser))] ≠ []) ∧
    forward_text [((5 : Int), (none : Option TgUser))] = "" ∧
    format_user 5 (none : Option TgUser) = "unknown user, id=5" := by
  have h := c10_forward_reply_omits_usernameless
    [((5 : Int), (none : Option TgUser))] (by decide)
    (by intro x hx; rw [List.mem_singleton] at hx; subst hx; rfl)
  exact ⟨by decide, h.1,
    h.2 ((5 : Int), (none : Option TgUser)) (List.mem_singleton.mpr rfl)
      rfl⟩

/-- Snapshot read of a poll's stored voted_users: the transaction's load
phase in `handle_poll_answer`. -/
def read_voted (db : Db) (pid : String) : List Int :=
  ((db.tracked_polls.find? (fun p => p.tg_poll_id == pid)).map
    (fun p => p.voted_users)).getD []

/-- Primitive steps of two vote-answer handlers running concurrently on the
same store: each handler performs a load of voted_users and later a store of
the list recomputed from its snapshot. -/
inductive RmwOp
  | load1
  | store1
  | load2
  | store2
deriving Repr, DecidableEq

/-- State of the two-handler interleaving: the shared store plus each
handler's loaded snapshot. -/
structure RmwState where
  db : Db
  snap1 : Option (List Int)
  snap2 : Option (List Int)

/-- Effect of one primitive step of the interleaved execution of answers
`e1` and `e2`. -/
def rmw_step (e1 e2 : PollAnswer) (s : RmwState) : RmwOp → RmwState
  | RmwOp.load1 => { s with snap1 := some (read_voted s.db e1.poll_id) }
  | RmwOp.store1 =>
    let v := apply_answer (s.snap1.getD []) e1.user e1.option_ids
    { s with db := write_voted s.db e1.poll_id v }
  | RmwOp.load2 => { s with snap2 := some (read_voted s.db e2.poll_id) }
  | RmwOp.store2 =>
    let v := apply_answer (s.snap2.getD []) e2.user e2.option_ids
    { s with db := write_voted s.db e2.poll_id v }

/-- Final store after executing a schedule of primitive steps. -/
def rmw_exec (e1 e2 : PollAnswer) (db : Db) (sched : List RmwOp) : Db :=
  (sched.foldl (rmw_step e1 e2) ⟨db, none, none⟩).db

/-- The serialized schedules of the two transactions: one handler's whole
load-compute-store completes before the other's begins. Modelled from the
spec: `env.transaction` (crate::common, not under src/) wraps each
handler's load-compute-store in one database transaction over the single
mutex-guarded connection, so concurrent vote-answer events for the same
poll execute in one of these two orders. -/
def serialized (sched : List RmwOp) : Prop :=
  sched = [RmwOp.load1, RmwOp.store1, RmwOp.load2, RmwOp.store2] ∨
  sched = [RmwOp.load2, RmwOp.store2, RmwOp.load1, RmwOp.store1]

theorem find_write_list (pid : String) (v : List Int) :
    ∀ l : List TrackedPoll,
    (l.find? (fun p => p.tg_poll_id == pid)).isSome = true →
    ∃ q, (l.map (fun r => if r.tg_poll_id == pid
          then { r with voted_users := v } else r)).find?
          (fun p => p.tg_poll_id == pid) = some q ∧ q.voted_users = v
  | [] => by intro h; simp at h
  | q :: l => by
    intro h
    by_cases hq : (q.tg_poll_id == pid) = true
    · refine ⟨{ q with voted_users := v }, ?_, rfl⟩
      rw [List.map_cons, if_pos hq]
      exact List.find?_cons_of_pos _ hq
    · have h' : (l.find? (fun p => p.tg_poll_id == pid)).isSome = true := by
        rwa [List.find?_cons_of_neg _ (by simpa using hq)] at h
      obtain ⟨r, hr, hrv⟩ := find_write_list pid v l h'
      refine ⟨r, ?_, hrv⟩
      rw [List.map_cons, if_neg hq,
        List.find?_cons_of_neg _ (by simpa using hq)]
      exact hr

/-- Reading voted_users right after writing it yields the written list. -/
theorem read_write_voted (db : Db) (pid : String) (v : List Int)
    (h : (db.tracked_polls.find? (fun p => p.tg_poll_id == pid)).isSome =
      true) :
    read_voted (write_voted db pid v) pid = v := by
  obtain ⟨q, hq, hv⟩ := find_write_list pid v db.tracked_polls h
  simp only [read_voted, write_voted]
  rw [hq]
  simpa using hv

/-- Writing voted_users keeps the poll findable. -/
theorem find_isSome_write (db : Db) (pid : String) (v : List Int)
    (h : (db.tracked_polls.find? (fun p => p.tg_poll_id == pid)).isSome =
      true) :
    ((write_voted db pid v).tracked_polls.find?
        (fun p => p.tg_poll_id == pid)).isSome = true := by
  obtain ⟨q, hq, -⟩ := find_write_list pid v db.tracked_polls h
  simp only [write_voted]
  rw [hq]
  rfl

/-- A vote-answer mutation leaves every other member's membership
unchanged. -/
theorem mem_apply_answer_other {v : List Int} {user x : Int}
    {opts : List Nat} (h : x ≠ user) :
    (x ∈ apply_answer v user opts) ↔ x ∈ v := by
  rw [mem_apply_answer]
  cases opts with
  | nil => simp [h]
  | cons o os => simp [h]

/-- A vote-answer mutation sets the answering member's membership to
exactly "option set non-empty". -/
theorem mem_apply_answer_self {v : List Int} {user : Int}
    {opts : List Nat} :
    (user ∈ apply_answer v user opts) ↔ opts ≠ [] := by
  rw [mem_apply_answer]
  cases opts with
  | nil => simp
  | cons o os => simp

/-- C2: with each vote-answer transaction executed atomically — the only
interleavings the transactional engine admits are the serialized ones — two
concurrent answers by different members on the same tracked poll never lose
each other's contribution: after either serial order, each member's final
membership in voted_users reflects exactly their own event. -/
theorem c2_serialized_no_lost_update (db : Db) (e1 e2 : PollAnswer)
    (pid : String) (sched : List RmwOp)
    (hp1 : e1.poll_id = pid) (hp2 : e2.poll_id = pid)
    (hfind : (db.tracked_polls.find?
        (fun p => p.tg_poll_id == pid)).isSome = true)
    (hne : e1.user ≠ e2.user)
    (hsched : serialized sched) :
    ((e1.user ∈ read_voted (rmw_exec e1 e2 db sched) pid) ↔
        e1.option_ids ≠ []) ∧
    ((e2.user ∈ read_voted (rmw_exec e1 e2 db sched) pid) ↔
        e2.option_ids ≠ []) := by
  have step2 : ∀ (ea eb : PollAnswer), ea.poll_id = pid →
      eb.poll_id = pid → ea.user ≠ eb.user →
      ((ea.user ∈ read_voted
          (write_voted (write_voted db pid
            (apply_answer (read_voted db pid) ea.user ea.option_ids)) pid
            (apply_answer
              (apply_answer (read_voted db pid) ea.user ea.option_ids)
              eb.user eb.option_ids)) pid) ↔ ea.option_ids ≠ []) ∧
      ((eb.user ∈ read_voted
          (write_voted (write_voted db pid
            (apply_answer (read_voted db pid) ea.user ea.option_ids)) pid
            (apply_answer
              (apply_answer (read_voted db pid) ea.user ea.option_ids)
              eb.user eb.option_ids)) pid) ↔ eb.option_ids ≠ []) := by
    intro ea eb hpa hpb hab
    have hf1 := find_isSome_write db pid
      (apply_answer (read_voted db pid) ea.user ea.option_ids) hfind
    rw [read_write_voted _ _ _ hf1]
    constructor
    · rw [mem_apply_answer_other hab, mem_apply_answer_self]
    · rw [mem_apply_answer_self]
  rcases hsched with hs | hs <;> subst hs
  · have hrw : rmw_exec e1 e2 db
        [RmwOp.load1, RmwOp.store1, RmwOp.load2, RmwOp.store2] =
        write_voted (write_voted db pid
          (apply_answer (read_voted db pid) e1.user e1.option_ids)) pid
          (apply_answer
            (apply_answer (read_voted db pid) e1.user e1.option_ids)
            e2.user e2.option_ids) := by
      simp only [rmw_exec, List.foldl_cons, List.foldl_nil, rmw_step,
        Option.getD_some, hp1, hp2]
      rw [read_write_voted db pid _ hfind]
    rw [hrw]
    exact step2 e1 e2 hp1 hp2 hne
  · have hrw : rmw_exec e1 e2 db
        [RmwOp.load2, RmwOp.store2, RmwOp.load1, RmwOp.store1] =
        write_voted (write_voted db pid
          (apply_answer (read_voted db pid) e2.user e2.option_ids)) pid
          (apply_answer
            (apply_answer (read_voted db pid) e2.user e2.option_ids)
            e1.user e1.option_ids) := by
      simp only [rmw_exec, List.foldl_cons, List.foldl_nil, rmw_step,
        Option.getD_some, hp1, hp2]
      rw [read_write_voted db pid _ hfind]
    rw [hrw]
    obtain ⟨hb, ha⟩ := step2 e2 e1 hp2 hp1 (fun hc => hne hc.symm)
    exact ⟨ha, hb⟩

/-- Witness for C2: member 1 votes while member 2 retracts, serial order
one-then-two, on a store holding the tracked poll. -/
theorem c2_serialized_no_lost_update_witness :
    serialized [RmwOp.load1, RmwOp.store1, RmwOp.load2, RmwOp.store2] ∧
    (((1 : Int) ∈ read_voted (rmw_exec ⟨"p1", 1, [0]⟩ ⟨"p1", 2, []⟩
          ⟨[⟨"p1", 9, 10, 20, []⟩], [], []⟩
          [RmwOp.load1, RmwOp.store1, RmwOp.load2, RmwOp.store2]) "p1") ↔
        ([0] : List Nat) ≠ []) ∧
    (((2 : Int) ∈ read_voted (rmw_exec ⟨"p1", 1, [0]⟩ ⟨"p1", 2, []⟩
          ⟨[⟨"p1", 9, 10, 20, []⟩], [], []⟩
          [RmwOp.load1, RmwOp.store1, RmwOp.load2, RmwOp.store2]) "p1") ↔
        ([] : List Nat) ≠ []) :=
  ⟨Or.inl rfl,
   c2_serialized_no_lost_update ⟨[⟨"p1", 9, 10, 20, []⟩], [], []⟩
     ⟨"p1", 1, [0]⟩ ⟨"p1", 2, []⟩ "p1"
     [RmwOp.load1, RmwOp.store1, RmwOp.load2, RmwOp.store2]
     rfl rfl (by decide) (by decide) (Or.inl rfl)⟩

end Botka
